import Mathlib

/-!
Shallow embedding of `color_remover.py` (repository `mnott/color_remover`).

Pixels and colors are tuples of channel values; the Python code works on
Python ints (channel values 0–255 as produced by PIL).  We model channels as
natural numbers and take absolute differences through `Int`.

`is_color_match` in the source compares the float `(dR²+dG²+dB²) ** 0.5`
against `tolerance * 2.5`.  For integer channel differences `s = dR²+dG²+dB²`
(bounded by 3·255²) and integer tolerance `t ≤ 255`, the float comparison
`sqrt s ≤ 2.5·t` decides exactly the rational comparison `4·s ≤ 25·t²`:
`2.5·t` is an exact binary float, the squared threshold `25·t²/4` is a
quarter-integer, and no integer radicand lies close enough to the threshold
square for rounding of the square root to flip the comparison.  The embedding
therefore uses the exact integer test `4·s ≤ 25·t²`; the theorems relate it
back to the real-number `Real.sqrt` formulation of the specification.
-/

namespace ColorRemover

/-- An RGB color triple (target or replacement color). -/
structure Color where
  r : Nat
  g : Nat
  b : Nat
deriving DecidableEq

/-- A pixel: three RGB channels plus an optional alpha channel (`none` for a
pure-RGB pixel).  Python's `pixel[:3]` corresponds to reading `r`, `g`, `b`. -/
structure Pixel where
  r : Nat
  g : Nat
  b : Nat
  a : Option Nat := none
deriving DecidableEq

/-- `abs(x - y)` on Python ints, for channel values. -/
def channel_diff (x y : Nat) : Nat := ((x : Int) - (y : Int)).natAbs

/-- `max(r_diff, g_diff, b_diff)` from `is_color_match`. -/
def max_channel_diff (pixel : Pixel) (target : Color) : Nat :=
  max (channel_diff pixel.r target.r)
    (max (channel_diff pixel.g target.g) (channel_diff pixel.b target.b))

/-- The squared Euclidean color distance `r_diff² + g_diff² + b_diff²`
from `is_color_match` (the source takes its square root as a float). -/
def sq_color_distance (pixel : Pixel) (target : Color) : Nat :=
  channel_diff pixel.r target.r ^ 2 + channel_diff pixel.g target.g ^ 2 +
    channel_diff pixel.b target.b ^ 2

/-- `is_color_match(pixel, target_color, tolerance)`: true when the maximum
per-channel difference is at most `tolerance`, or the Euclidean distance is at
most `tolerance * 2.5`.  The distance test is embedded exactly as
`4·(dR²+dG²+dB²) ≤ 25·tolerance²` (see the module comment). -/
def is_color_match (pixel : Pixel) (target_color : Color) (tolerance : Nat) : Bool :=
  decide (max_channel_diff pixel target_color ≤ tolerance) ||
    decide (4 * sq_color_distance pixel target_color ≤ 25 * tolerance ^ 2)

/-- `all(abs(c - 0) <= tolerance for c in px[:3])` from `process_single_frame`. -/
def px_is_black (px : Pixel) (tolerance : Nat) : Bool :=
  decide (channel_diff px.r 0 ≤ tolerance) && decide (channel_diff px.g 0 ≤ tolerance) &&
    decide (channel_diff px.b 0 ≤ tolerance)

/-- `all(abs(c - 255) <= tolerance for c in px[:3])` from `process_single_frame`. -/
def px_is_white (px : Pixel) (tolerance : Nat) : Bool :=
  decide (channel_diff px.r 255 ≤ tolerance) && decide (channel_diff px.g 255 ≤ tolerance) &&
    decide (channel_diff px.b 255 ≤ tolerance)

/-- The combined `is_black or is_white` test of `process_single_frame`
(the specification calls it `isNearBlackOrWhite`). -/
def isNearBlackOrWhite (px : Pixel) (tolerance : Nat) : Bool :=
  px_is_black px tolerance || px_is_white px tolerance

/-- `image.convert("RGB")` applied to one pixel: PIL drops the alpha band. -/
def Pixel.toRGB (p : Pixel) : Pixel := { r := p.r, g := p.g, b := p.b, a := none }

/-- The per-pixel body of the double loop in `process_single_frame`: the pixel
`px` read from the RGB-converted frame is mapped to the RGBA pixel written by
`putpixel`.  The two `target_color is None` branches are kept verbatim from the
source (they are syntactically identical there). -/
def process_pixel (target_color : Option Color) (replacement_color : Color)
    (keep_only_bw : Bool) (tolerance : Nat) (px : Pixel) : Pixel :=
  match target_color with
  | some target =>
    if is_color_match px target tolerance then
      { r := replacement_color.r, g := replacement_color.g, b := replacement_color.b,
        a := some 255 }
    else
      { r := px.r, g := px.g, b := px.b, a := some 255 }
  | none =>
    if keep_only_bw then
      if px_is_black px tolerance || px_is_white px tolerance then
        { r := px.r, g := px.g, b := px.b, a := some 255 }
      else
        { r := replacement_color.r, g := replacement_color.g, b := replacement_color.b,
          a := some 255 }
    else
      if px_is_black px tolerance || px_is_white px tolerance then
        { r := px.r, g := px.g, b := px.b, a := some 255 }
      else
        { r := replacement_color.r, g := replacement_color.g, b := replacement_color.b,
          a := some 255 }

/-- A decoded frame: a grid of pixels, stored row by row. -/
structure Frame where
  rows : List (List Pixel)
deriving DecidableEq

/-- Height of a frame (number of rows). -/
def Frame.height (f : Frame) : Nat := f.rows.length

/-- Width of a frame (length of its first row; frames decoded from images are
rectangular). -/
def Frame.width (f : Frame) : Nat := (f.rows.headD []).length

/-- `process_single_frame(image, target_color, replacement_color, keep_only_bw,
tolerance)`: converts the frame to RGB, allocates a fresh RGBA frame of the
same size, and writes `process_pixel` of every source pixel.  The source never
mutates its input image (`Image.new` plus `putpixel` on the new image only);
the embedding is accordingly a pure function of `image`. -/
def process_single_frame (image : Frame) (target_color : Option Color)
    (replacement_color : Color) (keep_only_bw : Bool) (tolerance : Nat) : Frame :=
  { rows := image.rows.map (fun row =>
      row.map (fun px => process_pixel target_color replacement_color keep_only_bw
        tolerance px.toRGB)) }

/-- A decoded animated (GIF) image: the ordered frames, the per-frame durations
(in ms) read from the file, and the container loop count when the file carries
one (`none` when the GIF has no loop extension). -/
structure GifImage where
  frames : List Frame
  frame_durations : List Nat
  loop : Option Nat
deriving DecidableEq

/-- The re-encoded animated output: frames together with the per-frame
durations and the loop count actually written to the file. -/
structure GifOutput where
  frames : List Frame
  frame_durations : List Nat
  loop : Nat
deriving DecidableEq

/-- `im.info.get("duration", 100)` as read at the `save` call.  By that point
`ImageSequence.Iterator` has seeked `im` through every frame, PIL updates
`info["duration"]` on each seek, and the failed seek past the end restores the
last frame — so the value read is the LAST frame's duration; the `.get`
default `100` applies when no duration was recorded. -/
def gif_info_duration (im : GifImage) : Nat := im.frame_durations.getLastD 100

/-- `im.info.get("loop", 0)`: the container loop count, defaulting to `0`
(loop forever) when the file has none. -/
def gif_info_loop (im : GifImage) : Nat := im.loop.getD 0

/-- The `ext == ".gif"` branch of `process_image`: every frame is processed by
`process_single_frame`, and `frames[0].save(..., save_all=True,
append_images=frames[1:], loop=im.info.get("loop", 0),
duration=im.info.get("duration", 100), disposal=2)` writes the result.  PIL
applies a scalar `duration` argument to every written frame, so each output
frame receives the single value `gif_info_duration im`. -/
def process_image_gif (im : GifImage) (target_color : Option Color)
    (replacement_color : Color) (keep_only_bw : Bool) (tolerance : Nat) : GifOutput :=
  let frames := im.frames.map (fun f =>
    process_single_frame f target_color replacement_color keep_only_bw tolerance)
  { frames := frames
    frame_durations := frames.map (fun _ => gif_info_duration im)
    loop := gif_info_loop im }

/-!
Model of `parse_color` and of the validation sequence in `main`.

`parse_color` delegates number parsing to Python's `int(s)` / `int(s, 16)`.
Python's `int` accepts, around the digits, leading and trailing whitespace, an
optional single sign, and single underscores between digits.  `pyInt` models
this grammar over ASCII (the Unicode digits and whitespace Python would also
accept do not occur in any input considered here); a base prefix such as `0x`
is not modelled, which is faithful at every call site: base 16 is only ever
applied to two-character slices, on which a prefix cannot be followed by a
digit, and base 10 admits no prefix.
-/

/-- ASCII whitespace as stripped by `str.strip()` and by `int()`. -/
def isPyWhitespace (c : Char) : Bool :=
  c = ' ' || c = '\t' || c = '\n' || c = '\r' || c = '\x0b' || c = '\x0c'

/-- `str.strip()` on a character list (ASCII whitespace). -/
def pyStripChars (cs : List Char) : List Char :=
  ((cs.dropWhile isPyWhitespace).reverse.dropWhile isPyWhitespace).reverse

/-- The value of one digit character in the given base, as accepted by
Python's `int` (decimal digits, then letters `a`–`z` / `A`–`Z`, valid when
their value is below the base). -/
def digitValue (base : Nat) (c : Char) : Option Nat :=
  if '0' ≤ c ∧ c ≤ '9' then
    if c.toNat - '0'.toNat < base then some (c.toNat - '0'.toNat) else none
  else if 'a' ≤ c ∧ c ≤ 'z' then
    if c.toNat - 'a'.toNat + 10 < base then some (c.toNat - 'a'.toNat + 10) else none
  else if 'A' ≤ c ∧ c ≤ 'Z' then
    if c.toNat - 'A'.toNat + 10 < base then some (c.toNat - 'A'.toNat + 10) else none
  else none

/-- Digits after the first one: Python's `int` allows a single underscore
between two digits. -/
def digitsRest (base : Nat) : List Char → Nat → Option Nat
  | [], acc => some acc
  | c :: rest, acc =>
    if c = '_' then
      match rest with
      | c2 :: rest2 =>
        match digitValue base c2 with
        | some v => digitsRest base rest2 (acc * base + v)
        | none => none
      | [] => none
    else
      match digitValue base c with
      | some v => digitsRest base rest (acc * base + v)
      | none => none

/-- A nonempty digit group (first character must be a digit, not an
underscore). -/
def parseDigits (base : Nat) : List Char → Option Nat
  | c :: rest =>
    match digitValue base c with
    | some v => digitsRest base rest v
    | none => none
  | [] => none

/-- Optional sign followed by a digit group. -/
def pySigned (base : Nat) (cs : List Char) : Option Int :=
  match cs with
  | [] => (parseDigits base []).map (fun n => (n : Int))
  | c :: rest =>
    if c = '+' then (parseDigits base rest).map (fun n => (n : Int))
    else if c = '-' then (parseDigits base rest).map (fun n => -(n : Int))
    else (parseDigits base (c :: rest)).map (fun n => (n : Int))

/-- Python's `int(s, base)` on a character list: surrounding whitespace,
optional sign, digit group. -/
def pyInt (base : Nat) (cs : List Char) : Option Int :=
  pySigned base (pyStripChars cs)

/-- `color_str.split(",")` on a character list. -/
def splitOnComma : List Char → List (List Char)
  | [] => [[]]
  | c :: rest =>
    if c = ',' then [] :: splitOnComma rest
    else
      match splitOnComma rest with
      | part :: parts => (c :: part) :: parts
      | [] => [[c]]

/-- `parse_color(color_str)`.  Returns `Except.ok none` for the empty string
(the source returns Python `None`), `Except.ok (some (r, g, b))` on success —
component values are `Int` because the hex branch performs no range check and
`int("-5", 16)` is negative — and `Except.error msg` when the source raises
`ValueError` (messages abbreviated: the source text contains quoted examples).
The hex branch requires the stripped string to have exactly 7 characters and
feeds the three 2-character slices to `int(·, 16)`; the RGB branch splits on
commas, feeds each part to `int(·)`, requires exactly three parts, and range
checks them to 0–255 (its range failure is re-raised with the generic
message by the surrounding `except ValueError`). -/
def parse_color (color_str : String) : Except String (Option (Int × Int × Int)) :=
  if color_str = "" then Except.ok none
  else
    let stripped : List Char := pyStripChars color_str.toList
    if stripped.head? = some '#' then
      if stripped.length ≠ 7 then Except.error "Hex color must be in RRGGBB hex format"
      else
        match pyInt 16 ((stripped.drop 1).take 2), pyInt 16 ((stripped.drop 3).take 2),
            pyInt 16 ((stripped.drop 5).take 2) with
        | some r, some g, some b => Except.ok (some (r, g, b))
        | _, _, _ => Except.error "Invalid hex color format"
    else
      match (splitOnComma stripped).map (pyInt 10) with
      | [some r, some g, some b] =>
        if 0 ≤ r ∧ r ≤ 255 ∧ 0 ≤ g ∧ g ≤ 255 ∧ 0 ≤ b ∧ b ≤ 255 then
          Except.ok (some (r, g, b))
        else Except.error "Color must be in either R,G,B format or hex format"
      | _ => Except.error "Color must be in either R,G,B format or hex format"

/-- Outcome of the validation sequence at the top of `main`:
`validationError msg` models printing the message and raising `typer.Exit(1)`
(exit code 1) before `process_image` is ever called — no image file is opened
and no output file is created on this path; `runProcess` models reaching the
`process_image(...)` call, the first point at which any image I/O happens,
with the validated arguments. -/
inductive MainResult where
  | validationError : String → MainResult
  | runProcess : Option (Int × Int × Int) → Option (Int × Int × Int) → Bool → Int → MainResult
deriving DecidableEq

/-- The body of `main`, in source order: tolerance range check, replacement
color parse, target color parse (skipped for an absent or empty `--search`
value, which is falsy in Python), input-file existence check, then the call to
`process_image`.  Every `ValueError` and the missing-file branch end in
`typer.Exit(1)`. -/
def main_run (input_exists : Bool) (target_color : Option String)
    (replacement_color : String) (keep_only_bw : Bool) (tolerance : Int) : MainResult :=
  if ¬ (0 ≤ tolerance ∧ tolerance ≤ 255) then
    MainResult.validationError "Tolerance must be between 0 and 255"
  else
    match parse_color replacement_color with
    | Except.error e => MainResult.validationError e
    | Except.ok replacement_rgb =>
      let target_step : Except String (Option (Int × Int × Int)) :=
        match target_color with
        | none => Except.ok none
        | some s => if s = "" then Except.ok none else parse_color s
      match target_step with
      | Except.error e => MainResult.validationError e
      | Except.ok target_rgb =>
        if input_exists = false then
          MainResult.validationError "Input file does not exist"
        else
          MainResult.runProcess target_rgb replacement_rgb keep_only_bw tolerance

/-- A concrete two-frame animated image with distinct per-frame durations
(100 ms and 200 ms) and an explicit loop count. -/
def gifTwoFrames : GifImage :=
  { frames := [Frame.mk [[Pixel.mk 10 10 10 none]], Frame.mk [[Pixel.mk 20 20 20 none]]]
    frame_durations := [100, 200]
    loop := some 0 }

/-!
Specification-side grammar for color strings, written from the amended claim
wording: `R,G,B` built from strict ASCII decimal digits, and `#RRGGBB` built
from strict hexadecimal digits.  These definitions are compared against
`parse_color`, which was translated from the source.
-/

/-- A strict ASCII decimal digit `0`–`9`. -/
def isStrictDecDigit (c : Char) : Bool := decide ('0' ≤ c) && decide (c ≤ '9')

/-- A lower-case hexadecimal letter `a`–`f`. -/
def isLowerHexLetter (c : Char) : Bool := decide ('a' ≤ c) && decide (c ≤ 'f')

/-- An upper-case hexadecimal letter `A`–`F`. -/
def isUpperHexLetter (c : Char) : Bool := decide ('A' ≤ c) && decide (c ≤ 'F')

/-- A strict hexadecimal digit `0`–`9`, `a`–`f` or `A`–`F`. -/
def isStrictHexDigit (c : Char) : Bool :=
  isStrictDecDigit c || isLowerHexLetter c || isUpperHexLetter c

/-- The numeric value of a string of strict decimal digits. -/
def decDigitsValue (cs : List Char) : Nat :=
  cs.foldl (fun acc c => 10 * acc + (c.toNat - '0'.toNat)) 0

/-- The numeric value of one strict hexadecimal digit. -/
def hexDigitValueOf (c : Char) : Nat :=
  if isStrictDecDigit c then c.toNat - '0'.toNat
  else if isLowerHexLetter c then c.toNat - 'a'.toNat + 10
  else c.toNat - 'A'.toNat + 10

/-!  Theorems.  -/

lemma is_color_match_toRGB (px : Pixel) (target : Color) (tol : Nat) :
    is_color_match px.toRGB target tol = is_color_match px target tol := rfl

lemma is_color_match_mk (px : Pixel) (a2 : Option Nat) (target : Color) (tol : Nat) :
    is_color_match (Pixel.mk px.r px.g px.b a2) target tol = is_color_match px target tol := rfl

lemma process_pixel_target (target replacement : Color) (k : Bool) (tol : Nat) (px : Pixel) :
    process_pixel (some target) replacement k tol px.toRGB =
      if is_color_match px target tol then
        Pixel.mk replacement.r replacement.g replacement.b (some 255)
      else Pixel.mk px.r px.g px.b (some 255) := by
  simp only [process_pixel, is_color_match_toRGB]
  rfl

lemma process_pixel_target_idem (target replacement : Color) (k : Bool) (tol : Nat)
    (px : Pixel) :
    process_pixel (some target) replacement k tol
        (process_pixel (some target) replacement k tol px.toRGB).toRGB =
      process_pixel (some target) replacement k tol px.toRGB := by
  rw [process_pixel_target target replacement k tol px, process_pixel_target]
  by_cases h : is_color_match px target tol = true
  · rw [if_pos h]
    split <;> rfl
  · rw [if_neg h, is_color_match_mk px (some 255) target tol, if_neg h]

/-- Claim C2: the near-black-or-white test of `process_single_frame` holds for
a pixel exactly when all three of its RGB channels are within `tolerance` of
0, or all three are within `tolerance` of 255; it holds on pure black and pure
white for every tolerance, and fails on mid grey at tolerance 0. -/
theorem C2_isNearBlackOrWhite_correct :
    (∀ (pixel : Pixel) (tolerance : Nat),
        isNearBlackOrWhite pixel tolerance = true ↔
          ((|(pixel.r : Int) - 0| ≤ (tolerance : Int) ∧ |(pixel.g : Int) - 0| ≤ (tolerance : Int) ∧
              |(pixel.b : Int) - 0| ≤ (tolerance : Int)) ∨
            (|(pixel.r : Int) - 255| ≤ (tolerance : Int) ∧
              |(pixel.g : Int) - 255| ≤ (tolerance : Int) ∧
              |(pixel.b : Int) - 255| ≤ (tolerance : Int)))) ∧
      (∀ t : Nat, isNearBlackOrWhite (Pixel.mk 0 0 0 none) t = true) ∧
      (∀ t : Nat, isNearBlackOrWhite (Pixel.mk 255 255 255 none) t = true) ∧
      isNearBlackOrWhite (Pixel.mk 128 128 128 none) 0 = false := by
  refine ⟨?_, ?_, ?_, by decide⟩
  · intro pixel tolerance
    simp only [isNearBlackOrWhite, px_is_black, px_is_white, channel_diff, Bool.or_eq_true,
      Bool.and_eq_true, decide_eq_true_eq, Int.abs_eq_natAbs]
    constructor
    · rintro (⟨⟨h1, h2⟩, h3⟩ | ⟨⟨h1, h2⟩, h3⟩) <;> [left; right] <;>
        refine ⟨?_, ?_, ?_⟩ <;> omega
    · rintro (⟨h1, h2, h3⟩ | ⟨h1, h2, h3⟩) <;> [left; right] <;>
        refine ⟨⟨?_, ?_⟩, ?_⟩ <;> omega
  · intro t
    simp [isNearBlackOrWhite, px_is_black, channel_diff]
  · intro t
    simp [isNearBlackOrWhite, px_is_white, channel_diff]

/-- Claim C3: with a target color, `process_single_frame` maps every pixel
independently — a matching pixel becomes the replacement color with alpha 255
and any other pixel keeps its RGB channels with alpha 255 — and every output
pixel is fully opaque whatever the input alpha was. -/
theorem C3_target_mode_maps_pixels :
    ∀ (image : Frame) (target replacement : Color) (keep_only_bw : Bool) (tolerance : Nat),
      ((process_single_frame image (some target) replacement keep_only_bw tolerance).rows =
          image.rows.map (List.map (fun px =>
            if is_color_match px target tolerance then
              Pixel.mk replacement.r replacement.g replacement.b (some 255)
            else Pixel.mk px.r px.g px.b (some 255)))) ∧
        ∀ row ∈ (process_single_frame image (some target) replacement keep_only_bw
            tolerance).rows, ∀ px ∈ row, px.a = some 255 := by
  intro image target replacement k tol
  constructor
  · simp only [process_single_frame, process_pixel_target]
  · intro row hrow px hpx
    simp only [process_single_frame, List.mem_map] at hrow
    obtain ⟨row0, -, rfl⟩ := hrow
    simp only [List.mem_map] at hpx
    obtain ⟨px0, -, rfl⟩ := hpx
    rw [process_pixel_target]
    split <;> rfl

lemma bw_toRGB (px : Pixel) (tol : Nat) :
    (px_is_black px.toRGB tol || px_is_white px.toRGB tol) =
      (px_is_black px tol || px_is_white px tol) := rfl

lemma process_pixel_none (replacement : Color) (k : Bool) (tol : Nat) (px : Pixel) :
    process_pixel none replacement k tol px.toRGB =
      if isNearBlackOrWhite px tol then Pixel.mk px.r px.g px.b (some 255)
      else Pixel.mk replacement.r replacement.g replacement.b (some 255) := by
  cases k <;> simp only [process_pixel, bw_toRGB, isNearBlackOrWhite] <;> rfl

/-- Claim C4: with no target color, the `keep_only_bw` flag is irrelevant —
the two policy branches of `process_single_frame` are the same code, so the
output frames coincide for every input; in both modes a pixel near black or
near white is kept (its RGB channels, alpha 255) and every other pixel becomes
the replacement color with alpha 255. -/
theorem C4_bw_only_equals_default :
    ∀ (image : Frame) (replacement : Color) (tolerance : Nat),
      process_single_frame image none replacement true tolerance =
          process_single_frame image none replacement false tolerance ∧
        (process_single_frame image none replacement true tolerance).rows =
          image.rows.map (List.map (fun px =>
            if isNearBlackOrWhite px tolerance then Pixel.mk px.r px.g px.b (some 255)
            else Pixel.mk replacement.r replacement.g replacement.b (some 255))) := by
  intro image replacement tolerance
  refine ⟨rfl, ?_⟩
  simp only [process_single_frame, process_pixel_none]

/-- Claim C6: `process_single_frame` preserves the frame dimensions — the
output has the same height, the same width, and row-by-row the same row
lengths as the input.  The source builds the output with `Image.new` and
`putpixel` on the new image only, so the input frame is never mutated; the
embedding is accordingly a pure function of the input frame. -/
theorem C6_dimensions_preserved :
    ∀ (image : Frame) (target_color : Option Color) (replacement : Color)
      (keep_only_bw : Bool) (tolerance : Nat),
      (process_single_frame image target_color replacement keep_only_bw tolerance).height =
          image.height ∧
        (process_single_frame image target_color replacement keep_only_bw tolerance).width =
          image.width ∧
        (process_single_frame image target_color replacement keep_only_bw
            tolerance).rows.map List.length = image.rows.map List.length := by
  intro image t r k tol
  refine ⟨by simp [process_single_frame, Frame.height], ?_, ?_⟩
  · cases h : image.rows with
    | nil => simp [process_single_frame, Frame.width, h]
    | cons row rest => simp [process_single_frame, Frame.width, h]
  · simp [process_single_frame, List.map_map, Function.comp_def]

/-- Claim C7: target-color removal is idempotent: processing a frame twice
with the same target and replacement gives the same frame as processing it
once (a replaced pixel maps to the replacement again whether or not the
replacement itself matches the target, and a kept pixel stays kept). -/
theorem C7_target_mode_idempotent :
    ∀ (image : Frame) (target replacement : Color) (keep_only_bw : Bool) (tolerance : Nat),
      process_single_frame
          (process_single_frame image (some target) replacement keep_only_bw tolerance)
          (some target) replacement keep_only_bw tolerance =
        process_single_frame image (some target) replacement keep_only_bw tolerance := by
  intro image target replacement k tol
  have hpx : (fun px : Pixel => process_pixel (some target) replacement k tol
        (process_pixel (some target) replacement k tol px.toRGB).toRGB) =
      fun px => process_pixel (some target) replacement k tol px.toRGB :=
    funext (process_pixel_target_idem target replacement k tol)
  simp only [process_single_frame, List.map_map, Function.comp_def, hpx]

/-- Claim C10: `is_color_match` is monotone in the tolerance: a pixel that
matches at tolerance `tol` also matches at any larger tolerance `tol2 ≤ 255`
(both the max-channel test and the squared-distance test are monotone). -/
theorem C10_tolerance_monotone (pixel : Pixel) (target : Color) (tol tol2 : Nat)
    (h1 : tol ≤ tol2) (h2 : tol2 ≤ 255)
    (h : is_color_match pixel target tol = true) :
    is_color_match pixel target tol2 = true := by
  simp only [is_color_match, Bool.or_eq_true, decide_eq_true_eq] at h ⊢
  rcases h with h | h
  · exact Or.inl (le_trans h h1)
  · exact Or.inr (le_trans h (Nat.mul_le_mul_left 25 (Nat.pow_le_pow_left h1 2)))

/-- Witness for C10 at pixel (200,10,10), target (255,0,0), tolerances
30 ≤ 40. -/
theorem C10_tolerance_monotone_witness :
    (30 ≤ 40 ∧ 40 ≤ 255 ∧ is_color_match (Pixel.mk 200 10 10 none) (Color.mk 255 0 0) 30 = true) ∧
      is_color_match (Pixel.mk 200 10 10 none) (Color.mk 255 0 0) 40 = true :=
  ⟨by decide, C10_tolerance_monotone (Pixel.mk 200 10 10 none) (Color.mk 255 0 0) 30 40
    (by decide) (by decide) (by decide)⟩

/-- Claim C5 fails on the code: `process_image` writes the GIF with the single
scalar duration `im.info.get("duration", 100)` — by save time the LAST frame's
duration, since `ImageSequence.Iterator` has seeked `im` through all frames and
PIL updates `info["duration"]` per seek — so an input whose frames have
distinct durations (here 100 ms and 200 ms) produces an output whose per-frame
durations are NOT identical to the input's. -/
theorem C5_counterexample :
    (process_image_gif gifTwoFrames none (Color.mk 255 255 255) false 30).frame_durations ≠
      gifTwoFrames.frame_durations := by decide

/-- Claim C5 as amended: for a nonempty animated input, the output has the
same number of frames and the loop count the source wrote
(`im.info.get("loop", 0)`: the input's loop count when present, else 0), but
every output frame receives the single duration `im.info.get("duration", 100)`
— the last frame's duration, because the frame iteration has seeked `im` to
the final frame and PIL tracks the current frame's duration in `info`;
defaulting to 100 ms — instead of its own input duration.  The nonemptiness hypothesis marks the model boundary: on a
zero-frame sequence the source's `frames[0]` would raise `IndexError`. -/
theorem C5_amended_durations (im : GifImage) (target_color : Option Color)
    (replacement : Color) (keep_only_bw : Bool) (tolerance : Nat)
    (h : im.frames ≠ []) :
    (process_image_gif im target_color replacement keep_only_bw tolerance).frames.length =
        im.frames.length ∧
      (process_image_gif im target_color replacement keep_only_bw tolerance).loop =
        im.loop.getD 0 ∧
      (process_image_gif im target_color replacement keep_only_bw tolerance).frame_durations =
        List.replicate im.frames.length (im.frame_durations.getLastD 100) := by
  refine ⟨by simp [process_image_gif], by simp [process_image_gif, gif_info_loop], ?_⟩
  simp [process_image_gif, gif_info_duration, Function.comp_def, List.map_const']

/-- Witness for the amended C5 at the concrete two-frame image. -/
theorem C5_amended_durations_witness :
    gifTwoFrames.frames ≠ [] ∧
      ((process_image_gif gifTwoFrames none (Color.mk 255 255 255) false 30).frames.length =
          gifTwoFrames.frames.length ∧
        (process_image_gif gifTwoFrames none (Color.mk 255 255 255) false 30).loop =
          gifTwoFrames.loop.getD 0 ∧
        (process_image_gif gifTwoFrames none (Color.mk 255 255 255) false 30).frame_durations =
          List.replicate gifTwoFrames.frames.length (gifTwoFrames.frame_durations.getLastD 100)) :=
  ⟨by decide, C5_amended_durations gifTwoFrames none (Color.mk 255 255 255) false 30
    (by decide)⟩

lemma sqrt_le_tol_mul_iff (s t : Nat) :
    Real.sqrt (s : ℝ) ≤ (t : ℝ) * 2.5 ↔ 4 * s ≤ 25 * t ^ 2 := by
  rw [Real.sqrt_le_left (by positivity)]
  rw [show ((t : ℝ) * 2.5) ^ 2 = ((25 * t ^ 2 : ℕ) : ℝ) / 4 by push_cast; ring]
  rw [le_div_iff (by norm_num)]
  rw [show (s : ℝ) * 4 = ((4 * s : ℕ) : ℝ) by push_cast; ring]
  exact Nat.cast_le

/-- Claim C1: `is_color_match` returns true exactly when the maximum
per-channel absolute difference is at most the tolerance, or the Euclidean
distance `sqrt(dR²+dG²+dB²)` is at most `tolerance * 2.5`; and on pixel
(200,10,10) with target (255,0,0) and tolerance 30 it returns true through the
distance branch alone (the max channel difference, 55, exceeds 30). -/
theorem C1_is_color_match_spec :
    (∀ (pixel : Pixel) (target : Color) (tolerance : Nat),
        is_color_match pixel target tolerance = true ↔
          (max_channel_diff pixel target ≤ tolerance ∨
            Real.sqrt ((channel_diff pixel.r target.r : ℝ) ^ 2 +
                (channel_diff pixel.g target.g : ℝ) ^ 2 +
                (channel_diff pixel.b target.b : ℝ) ^ 2) ≤ (tolerance : ℝ) * 2.5)) ∧
      is_color_match (Pixel.mk 200 10 10 none) (Color.mk 255 0 0) 30 = true ∧
      ¬ max_channel_diff (Pixel.mk 200 10 10 none) (Color.mk 255 0 0) ≤ 30 ∧
      4 * sq_color_distance (Pixel.mk 200 10 10 none) (Color.mk 255 0 0) ≤ 25 * 30 ^ 2 := by
  refine ⟨?_, by decide, by decide, by decide⟩
  intro pixel target tolerance
  have hs : (channel_diff pixel.r target.r : ℝ) ^ 2 + (channel_diff pixel.g target.g : ℝ) ^ 2 +
      (channel_diff pixel.b target.b : ℝ) ^ 2 = ((sq_color_distance pixel target : ℕ) : ℝ) := by
    unfold sq_color_distance
    push_cast
    ring
  rw [is_color_match, Bool.or_eq_true, decide_eq_true_eq, decide_eq_true_eq, hs,
    sqrt_le_tol_mul_iff]

/-- Claim C8: every validation failure — tolerance outside [0,255], an
unparseable replacement or target color string, or a missing input file — makes
`main` stop with a `validationError` (printed message and `typer.Exit(1)`,
exit code 1) before the `process_image` call, which is the only point where
the image is read or an output file is written; in the model no image I/O and
no output file can exist on the `validationError` result.  In particular
tolerance 300 is rejected this way (see the witness). -/
theorem C8_validation_before_processing (input_exists : Bool) (target_color : Option String)
    (replacement_color : String) (keep_only_bw : Bool) (tolerance : Int)
    (h : ¬ (0 ≤ tolerance ∧ tolerance ≤ 255) ∨
        (∃ e, parse_color replacement_color = Except.error e) ∨
        (∃ s e, target_color = some s ∧ s ≠ "" ∧ parse_color s = Except.error e) ∨
        input_exists = false) :
    ∃ msg, main_run input_exists target_color replacement_color keep_only_bw tolerance =
      MainResult.validationError msg := by
  unfold main_run
  by_cases htol : 0 ≤ tolerance ∧ tolerance ≤ 255
  case neg => exact ⟨_, by rw [if_pos htol]⟩
  rw [if_neg (not_not_intro htol)]
  rcases h with h | ⟨e, he⟩ | ⟨s, e, hs, hne, he⟩ | hex
  · exact absurd htol h
  · rw [he]
    exact ⟨e, rfl⟩
  · cases hrep : parse_color replacement_color with
    | error e2 => exact ⟨e2, rfl⟩
    | ok rgb =>
      subst hs
      simp only [if_neg hne, he]
      exact ⟨e, rfl⟩
  · cases hrep : parse_color replacement_color with
    | error e2 => exact ⟨e2, rfl⟩
    | ok rgb =>
      cases target_color with
      | none =>
        subst hex
        exact ⟨_, rfl⟩
      | some s =>
        by_cases hse : s = ""
        · subst hse
          subst hex
          simp only [if_pos rfl]
          exact ⟨_, rfl⟩
        · cases hts : parse_color s with
          | error e2 =>
            simp only [if_neg hse, hts]
            exact ⟨e2, rfl⟩
          | ok t2 =>
            subst hex
            simp only [if_neg hse, hts]
            exact ⟨_, rfl⟩

/-- Witness for C8: `--tolerance 300` (with default replacement color, no
target color and an existing input file) is rejected before any image I/O. -/
theorem C8_validation_before_processing_witness :
    (¬ ((0 : Int) ≤ 300 ∧ (300 : Int) ≤ 255) ∨
        (∃ e, parse_color "255,255,255" = Except.error e) ∨
        (∃ s e, (none : Option String) = some s ∧ s ≠ "" ∧ parse_color s = Except.error e) ∨
        true = false) ∧
      ∃ msg, main_run true none "255,255,255" false 300 = MainResult.validationError msg :=
  ⟨Or.inl (by decide),
    C8_validation_before_processing true none "255,255,255" false 300 (Or.inl (by decide))⟩

lemma char_le_iff_toNat (a b : Char) : a ≤ b ↔ a.toNat ≤ b.toNat := Iff.rfl

lemma strictDec_range (c : Char) (h : isStrictDecDigit c = true) :
    48 ≤ c.toNat ∧ c.toNat ≤ 57 := by
  have hp : '0' ≤ c ∧ c ≤ '9' := by simpa [isStrictDecDigit] using h
  exact ⟨(char_le_iff_toNat '0' c).mp hp.1, (char_le_iff_toNat c '9').mp hp.2⟩

lemma lowerHex_range (c : Char) (h : isLowerHexLetter c = true) :
    97 ≤ c.toNat ∧ c.toNat ≤ 102 := by
  have hp : 'a' ≤ c ∧ c ≤ 'f' := by simpa [isLowerHexLetter] using h
  exact ⟨(char_le_iff_toNat 'a' c).mp hp.1, (char_le_iff_toNat c 'f').mp hp.2⟩

lemma upperHex_range (c : Char) (h : isUpperHexLetter c = true) :
    65 ≤ c.toNat ∧ c.toNat ≤ 70 := by
  have hp : 'A' ≤ c ∧ c ≤ 'F' := by simpa [isUpperHexLetter] using h
  exact ⟨(char_le_iff_toNat 'A' c).mp hp.1, (char_le_iff_toNat c 'F').mp hp.2⟩

lemma strictHex_range (c : Char) (h : isStrictHexDigit c = true) :
    48 ≤ c.toNat ∧ c.toNat ≤ 102 ∧ c.toNat ≠ 95 := by
  have h3 : (isStrictDecDigit c = true ∨ isLowerHexLetter c = true) ∨
      isUpperHexLetter c = true := by
    simpa [isStrictHexDigit, Bool.or_eq_true] using h
  rcases h3 with (hc | hc) | hc
  · have := strictDec_range c hc; omega
  · have := lowerHex_range c hc; omega
  · have := upperHex_range c hc; omega

lemma toNat_le_of_ws (c : Char) (h : isPyWhitespace c = true) : c.toNat ≤ 32 := by
  simp only [isPyWhitespace, Bool.or_eq_true, decide_eq_true_eq] at h
  rcases h with ((((h | h) | h) | h) | h) | h <;> subst h <;> decide

lemma not_ws_of_ge (c : Char) (h : 33 ≤ c.toNat) : isPyWhitespace c = false := by
  cases hw : isPyWhitespace c
  · rfl
  · have := toNat_le_of_ws c hw
    omega

lemma dropWhile_eq_self_of_false (p : Char → Bool) (cs : List Char)
    (h : ∀ c ∈ cs, p c = false) : cs.dropWhile p = cs := by
  cases cs with
  | nil => rfl
  | cons c rest => simp [List.dropWhile_cons, h c (List.mem_cons_self c rest)]

lemma pyStripChars_eq_self (cs : List Char) (h : ∀ c ∈ cs, isPyWhitespace c = false) :
    pyStripChars cs = cs := by
  unfold pyStripChars
  rw [dropWhile_eq_self_of_false _ _ h]
  rw [dropWhile_eq_self_of_false _ _ (fun c hc => h c (List.mem_reverse.mp hc))]
  exact List.reverse_reverse cs

lemma digitValue_dec (c : Char) (h : isStrictDecDigit c = true) :
    digitValue 10 c = some (c.toNat - 48) := by
  have hp : '0' ≤ c ∧ c ≤ '9' := by simpa [isStrictDecDigit] using h
  have hr := strictDec_range c h
  unfold digitValue
  rw [if_pos hp, if_pos (show c.toNat - ('0' : Char).toNat < 10 by
    rw [show ('0' : Char).toNat = 48 from rfl]; omega)]
  rw [show ('0' : Char).toNat = 48 from rfl]

lemma digitValue_hex (c : Char) (h : isStrictHexDigit c = true) :
    digitValue 16 c = some (hexDigitValueOf c) := by
  have h3 : (isStrictDecDigit c = true ∨ isLowerHexLetter c = true) ∨
      isUpperHexLetter c = true := by
    simpa [isStrictHexDigit, Bool.or_eq_true] using h
  rcases h3 with (hc | hc) | hc
  · have hp : '0' ≤ c ∧ c ≤ '9' := by simpa [isStrictDecDigit] using hc
    have hr := strictDec_range c hc
    unfold digitValue hexDigitValueOf
    rw [if_pos hp, if_pos (show c.toNat - ('0' : Char).toNat < 16 by
      rw [show ('0' : Char).toNat = 48 from rfl]; omega), if_pos hc]
  · have hp : 'a' ≤ c ∧ c ≤ 'f' := by simpa [isLowerHexLetter] using hc
    have hr := lowerHex_range c hc
    have hdec : isStrictDecDigit c = false := by
      cases hd : isStrictDecDigit c
      · rfl
      · have := strictDec_range c hd; omega
    unfold digitValue hexDigitValueOf
    rw [if_neg (fun hp9 : '0' ≤ c ∧ c ≤ '9' => by
      have h9 := (char_le_iff_toNat c '9').mp hp9.2
      rw [show ('9' : Char).toNat = 57 from rfl] at h9
      omega)]
    rw [if_pos (⟨hp.1, (char_le_iff_toNat c 'z').mpr (by
      rw [show ('z' : Char).toNat = 122 from rfl]; omega)⟩ : 'a' ≤ c ∧ c ≤ 'z')]
    rw [if_pos (show c.toNat - ('a' : Char).toNat + 10 < 16 by
      rw [show ('a' : Char).toNat = 97 from rfl]; omega)]
    rw [if_neg (show ¬ isStrictDecDigit c = true by simp [hdec])]
    rw [if_pos (show isLowerHexLetter c = true from hc)]
  · have hp : 'A' ≤ c ∧ c ≤ 'F' := by simpa [isUpperHexLetter] using hc
    have hr := upperHex_range c hc
    have hdec : isStrictDecDigit c = false := by
      cases hd : isStrictDecDigit c
      · rfl
      · have := strictDec_range c hd; omega
    have hlow : isLowerHexLetter c = false := by
      cases hd : isLowerHexLetter c
      · rfl
      · have := lowerHex_range c hd; omega
    unfold digitValue hexDigitValueOf
    rw [if_neg (fun hp9 : '0' ≤ c ∧ c ≤ '9' => by
      have h9 := (char_le_iff_toNat c '9').mp hp9.2
      rw [show ('9' : Char).toNat = 57 from rfl] at h9
      omega)]
    rw [if_neg (fun hpz : 'a' ≤ c ∧ c ≤ 'z' => by
      have ha := (char_le_iff_toNat 'a' c).mp hpz.1
      rw [show ('a' : Char).toNat = 97 from rfl] at ha
      omega)]
    rw [if_pos (⟨hp.1, (char_le_iff_toNat c 'Z').mpr (by
      rw [show ('Z' : Char).toNat = 90 from rfl]; omega)⟩ : 'A' ≤ c ∧ c ≤ 'Z')]
    rw [if_pos (show c.toNat - ('A' : Char).toNat + 10 < 16 by
      rw [show ('A' : Char).toNat = 65 from rfl]; omega)]
    rw [if_neg (show ¬ isStrictDecDigit c = true by simp [hdec])]
    rw [if_neg (show ¬ isLowerHexLetter c = true by simp [hlow])]

lemma digitsRest_dec (cs : List Char) (acc : Nat)
    (h : ∀ c ∈ cs, isStrictDecDigit c = true) :
    digitsRest 10 cs acc =
      some (cs.foldl (fun a c => a * 10 + (c.toNat - 48)) acc) := by
  induction cs generalizing acc with
  | nil => rfl
  | cons c rest ih =>
    have hc := h c (List.mem_cons_self c rest)
    have hr := strictDec_range c hc
    rw [digitsRest.eq_def]
    simp only [show ¬ c = '_' from (by rintro rfl; exact absurd hr (by decide)), if_false,
      digitValue_dec c hc]
    rw [ih (acc * 10 + (c.toNat - 48)) (fun x hx => h x (List.mem_cons_of_mem c hx))]
    simp only [List.foldl_cons]

lemma foldl_dec_eq (cs : List Char) (i : Nat) :
    cs.foldl (fun a c => a * 10 + (c.toNat - 48)) i =
      cs.foldl (fun acc c => 10 * acc + (c.toNat - ('0' : Char).toNat)) i := by
  induction cs generalizing i with
  | nil => rfl
  | cons c rest ih =>
    rw [List.foldl_cons, List.foldl_cons, ih]
    congr 1
    rw [show ('0' : Char).toNat = 48 from rfl]
    omega

lemma parseDigits_dec (c : Char) (rest : List Char)
    (h : ∀ x ∈ c :: rest, isStrictDecDigit x = true) :
    parseDigits 10 (c :: rest) = some (decDigitsValue (c :: rest)) := by
  rw [parseDigits.eq_def]
  simp only [digitValue_dec c (h c (List.mem_cons_self c rest))]
  rw [digitsRest_dec rest _ (fun x hx => h x (List.mem_cons_of_mem c hx))]
  unfold decDigitsValue
  rw [← foldl_dec_eq]
  simp only [List.foldl_cons]
  congr 2
  omega

lemma pySigned_dec (c : Char) (rest : List Char)
    (h : ∀ x ∈ c :: rest, isStrictDecDigit x = true) :
    pySigned 10 (c :: rest) = some ((decDigitsValue (c :: rest) : Int)) := by
  have hr := strictDec_range c (h c (List.mem_cons_self c rest))
  simp only [pySigned]
  rw [if_neg (show ¬ c = '+' by rintro rfl; exact absurd hr (by decide))]
  rw [if_neg (show ¬ c = '-' by rintro rfl; exact absurd hr (by decide))]
  rw [parseDigits_dec c rest h]
  rfl

lemma pyInt_dec (cs : List Char) (hne : cs ≠ [])
    (h : ∀ x ∈ cs, isStrictDecDigit x = true) :
    pyInt 10 cs = some ((decDigitsValue cs : Int)) := by
  unfold pyInt
  rw [pyStripChars_eq_self cs
    (fun c hc => not_ws_of_ge c (by have := strictDec_range c (h c hc); omega))]
  cases cs with
  | nil => exact absurd rfl hne
  | cons c rest => exact pySigned_dec c rest h

lemma pyInt_hexPair (c1 c2 : Char) (h1 : isStrictHexDigit c1 = true)
    (h2 : isStrictHexDigit c2 = true) :
    pyInt 16 [c1, c2] =
      some ((hexDigitValueOf c1 * 16 + hexDigitValueOf c2 : Nat) : Int) := by
  have hr1 := strictHex_range c1 h1
  have hr2 := strictHex_range c2 h2
  unfold pyInt
  rw [pyStripChars_eq_self [c1, c2] (by
    intro c hc
    simp only [List.mem_cons, List.not_mem_nil, or_false] at hc
    rcases hc with rfl | rfl
    · exact not_ws_of_ge c (by omega)
    · exact not_ws_of_ge c (by omega))]
  simp only [pySigned]
  rw [if_neg (show ¬ c1 = '+' by rintro rfl; exact absurd hr1 (by decide))]
  rw [if_neg (show ¬ c1 = '-' by rintro rfl; exact absurd hr1 (by decide))]
  simp only [parseDigits]
  rw [digitValue_hex c1 h1]
  simp only [digitsRest]
  rw [if_neg (show ¬ c2 = '_' by rintro rfl; exact absurd hr2 (by simp))]
  rw [digitValue_hex c2 h2]
  simp only [digitsRest]
  rfl

lemma stringMk_cons_ne_empty (c : Char) (cs : List Char) : String.mk (c :: cs) ≠ "" := by
  intro hq
  exact List.noConfusion (congrArg String.data hq)

lemma splitOnComma_append (xs ys : List Char) (h : ∀ c ∈ xs, c ≠ ',') :
    splitOnComma (xs ++ ',' :: ys) = xs :: splitOnComma ys := by
  induction xs with
  | nil => simp [splitOnComma]
  | cons x xs ih =>
    rw [List.cons_append]
    rw [splitOnComma.eq_def]
    simp only [h x (List.mem_cons_self x xs), if_false,
      ih (fun c hc => h c (List.mem_cons_of_mem x hc))]

lemma splitOnComma_single (xs : List Char) (h : ∀ c ∈ xs, c ≠ ',') :
    splitOnComma xs = [xs] := by
  induction xs with
  | nil => rfl
  | cons x xs ih =>
    rw [splitOnComma.eq_def]
    simp only [h x (List.mem_cons_self x xs), if_false,
      ih (fun c hc => h c (List.mem_cons_of_mem x hc))]

/-- Claim C9 fails on the code at two inputs: the empty string is not
rejected (the source returns Python `None` before any shape check), and
`"#+1+2+3"` — a 7-character `#` string whose six trailing characters are not
hex digits — is accepted as the color (1, 2, 3), because each 2-character
slice is read by Python's `int(·, 16)`, which tolerates a leading sign. -/
theorem C9_counterexample :
    parse_color "" = Except.ok none ∧
      parse_color "#+1+2+3" = Except.ok (some (1, 2, 3)) := by
  constructor <;> rfl

/-- Claim C9 as amended: `parse_color` accepts the claimed shapes with their
claimed values — every `R,G,B` string of strict decimal digit groups with
values in [0,255] parses to those values, and every `#RRGGBB` string of strict
hex digits parses to the three byte values — and `#FF00FF`, `10,20,30` parse
as claimed while `#ZZZZZZ` is rejected.  However the claimed "rejects every
other shape" is weakened: the empty string yields no color rather than an
error, and Python's `int` leniency (surrounding whitespace, a leading sign,
underscores between digits) admits further shapes, e.g. `#+1+2+3` (see the
counterexample). -/
theorem C9_parse_color_amended :
    (∀ (c1 : Char) (r1 d2 d3 : List Char),
        d2 ≠ [] → d3 ≠ [] →
        (∀ c ∈ c1 :: r1, isStrictDecDigit c = true) →
        (∀ c ∈ d2, isStrictDecDigit c = true) →
        (∀ c ∈ d3, isStrictDecDigit c = true) →
        decDigitsValue (c1 :: r1) ≤ 255 → decDigitsValue d2 ≤ 255 →
        decDigitsValue d3 ≤ 255 →
        parse_color (String.mk ((c1 :: r1) ++ (',' :: (d2 ++ (',' :: d3))))) =
          Except.ok (some ((decDigitsValue (c1 :: r1) : Int), (decDigitsValue d2 : Int),
            (decDigitsValue d3 : Int)))) ∧
      (∀ c1 c2 c3 c4 c5 c6 : Char,
        isStrictHexDigit c1 = true → isStrictHexDigit c2 = true →
        isStrictHexDigit c3 = true → isStrictHexDigit c4 = true →
        isStrictHexDigit c5 = true → isStrictHexDigit c6 = true →
        parse_color (String.mk ['#', c1, c2, c3, c4, c5, c6]) =
          Except.ok (some (((hexDigitValueOf c1 * 16 + hexDigitValueOf c2 : Nat) : Int),
            ((hexDigitValueOf c3 * 16 + hexDigitValueOf c4 : Nat) : Int),
            ((hexDigitValueOf c5 * 16 + hexDigitValueOf c6 : Nat) : Int)))) ∧
      parse_color "#FF00FF" = Except.ok (some (255, 0, 255)) ∧
      parse_color "10,20,30" = Except.ok (some (10, 20, 30)) ∧
      parse_color "#ZZZZZZ" = Except.error "Invalid hex color format" := by
  refine ⟨?_, ?_, by rfl, by rfl, by rfl⟩
  · intro c1 r1 d2 d3 h2ne h3ne hd1 hd2 hd3 hv1 hv2 hv3
    have hc1 := strictDec_range c1 (hd1 c1 (List.mem_cons_self c1 r1))
    have hemp : String.mk ((c1 :: r1) ++ (',' :: (d2 ++ (',' :: d3)))) ≠ "" := by
      rw [List.cons_append]
      exact stringMk_cons_ne_empty _ _
    have hstrip : pyStripChars ((c1 :: r1) ++ (',' :: (d2 ++ (',' :: d3)))) =
        (c1 :: r1) ++ (',' :: (d2 ++ (',' :: d3))) := by
      refine pyStripChars_eq_self _ ?_
      intro x hx
      rcases List.mem_append.mp hx with hx | hx
      · exact not_ws_of_ge x (by have := strictDec_range x (hd1 x hx); omega)
      · rcases List.mem_cons.mp hx with rfl | hx
        · decide
        · rcases List.mem_append.mp hx with hx | hx
          · exact not_ws_of_ge x (by have := strictDec_range x (hd2 x hx); omega)
          · rcases List.mem_cons.mp hx with rfl | hx
            · decide
            · exact not_ws_of_ge x (by have := strictDec_range x (hd3 x hx); omega)
    have hhead : ((c1 :: r1) ++ (',' :: (d2 ++ (',' :: d3)))).head? = some c1 := by
      rw [List.cons_append, List.head?_cons]
    have hch : ¬ (some c1 = some '#') := by
      intro hh
      injection hh with hh
      subst hh
      exact absurd hc1 (by decide)
    have hsplit : splitOnComma ((c1 :: r1) ++ (',' :: (d2 ++ (',' :: d3)))) =
        [c1 :: r1, d2, d3] := by
      rw [splitOnComma_append _ _ (fun x hx heq => by
        subst heq
        exact absurd (strictDec_range ',' (hd1 ',' hx)) (by decide))]
      rw [splitOnComma_append _ _ (fun x hx heq => by
        subst heq
        exact absurd (strictDec_range ',' (hd2 ',' hx)) (by decide))]
      rw [splitOnComma_single _ (fun x hx heq => by
        subst heq
        exact absurd (strictDec_range ',' (hd3 ',' hx)) (by decide))]
    have hb1 : (0 : Int) ≤ (decDigitsValue (c1 :: r1) : Int) := Int.ofNat_nonneg _
    have hb2 : (decDigitsValue (c1 :: r1) : Int) ≤ 255 := by exact_mod_cast hv1
    have hb3 : (0 : Int) ≤ (decDigitsValue d2 : Int) := Int.ofNat_nonneg _
    have hb4 : (decDigitsValue d2 : Int) ≤ 255 := by exact_mod_cast hv2
    have hb5 : (0 : Int) ≤ (decDigitsValue d3 : Int) := Int.ofNat_nonneg _
    have hb6 : (decDigitsValue d3 : Int) ≤ 255 := by exact_mod_cast hv3
    unfold parse_color
    rw [if_neg hemp]
    rw [show (String.mk ((c1 :: r1) ++ (',' :: (d2 ++ (',' :: d3))))).toList =
      (c1 :: r1) ++ (',' :: (d2 ++ (',' :: d3))) from rfl]
    rw [hstrip]
    simp only [hhead, hch, if_false, hsplit, List.map_cons, List.map_nil,
      pyInt_dec (c1 :: r1) (List.cons_ne_nil c1 r1) hd1,
      pyInt_dec d2 h2ne hd2, pyInt_dec d3 h3ne hd3]
    simp [hb1, hb2, hb3, hb4, hb5, hb6]
  · intro c1 c2 c3 c4 c5 c6 h1 h2 h3 h4 h5 h6
    have hr1 := strictHex_range c1 h1
    have hr2 := strictHex_range c2 h2
    have hr3 := strictHex_range c3 h3
    have hr4 := strictHex_range c4 h4
    have hr5 := strictHex_range c5 h5
    have hr6 := strictHex_range c6 h6
    unfold parse_color
    rw [if_neg (stringMk_cons_ne_empty _ _)]
    rw [show (String.mk ['#', c1, c2, c3, c4, c5, c6]).toList =
      ['#', c1, c2, c3, c4, c5, c6] from rfl]
    rw [pyStripChars_eq_self _ (by
      intro x hx
      simp only [List.mem_cons, List.not_mem_nil, or_false] at hx
      rcases hx with rfl | rfl | rfl | rfl | rfl | rfl | rfl
      · decide
      · exact not_ws_of_ge x (by omega)
      · exact not_ws_of_ge x (by omega)
      · exact not_ws_of_ge x (by omega)
      · exact not_ws_of_ge x (by omega)
      · exact not_ws_of_ge x (by omega)
      · exact not_ws_of_ge x (by omega))]
    rw [if_pos (show (['#', c1, c2, c3, c4, c5, c6].head? = some '#') from rfl)]
    rw [if_neg (show ¬ (['#', c1, c2, c3, c4, c5, c6].length ≠ 7) from fun hq => hq rfl)]
    simp only [List.drop_succ_cons, List.drop_zero, List.take_succ_cons, List.take_zero]
    rw [pyInt_hexPair c1 c2 h1 h2, pyInt_hexPair c3 c4 h3 h4, pyInt_hexPair c5 c6 h5 h6]

/-- Witness for the amended C9: the decimal string `10,20,30` through the
universal decimal case, and the hex string `#aB34F6` through the universal hex
case. -/
theorem C9_parse_color_amended_witness :
    parse_color (String.mk (['1', '0'] ++ (',' :: (['2', '0'] ++ (',' :: ['3', '0']))))) =
        Except.ok (some ((decDigitsValue ['1', '0'] : Int), (decDigitsValue ['2', '0'] : Int),
          (decDigitsValue ['3', '0'] : Int))) ∧
      parse_color (String.mk ['#', 'a', 'B', '3', '4', 'F', '6']) =
        Except.ok (some (((hexDigitValueOf 'a' * 16 + hexDigitValueOf 'B' : Nat) : Int),
          ((hexDigitValueOf '3' * 16 + hexDigitValueOf '4' : Nat) : Int),
          ((hexDigitValueOf 'F' * 16 + hexDigitValueOf '6' : Nat) : Int))) :=
  ⟨C9_parse_color_amended.1 '1' ['0'] ['2', '0'] ['3', '0'] (by decide) (by decide)
      (by decide) (by decide) (by decide) (by decide) (by decide) (by decide),
    C9_parse_color_amended.2.1 'a' 'B' '3' '4' 'F' '6' (by decide) (by decide) (by decide)
      (by decide) (by decide) (by decide)⟩

end ColorRemover
